import Mathlib

/-!
Shallow embedding of `wenet/transducer/transducer.py` (class `Transducer`):
training-loss composition (`forward`, lines 64-132), the reverse-decoding
capability check of `transducer_attention_rescoring` (lines 271-273), the
ignore-id label remap fed to the RNN-T loss kernel (lines 93-99 and 320-322),
the rescoring score fusion and arg-max selection (lines 331-371), and the
frame-synchronous greedy decoding state machine (`greedy_search`,
lines 374-457).

Floating-point values are embedded as rationals (`Rat`); the opaque neural
collaborators (encoder, predictor, joint network, CTC head, attention
decoder) are embedded as parameters with the I/O shapes the class uses, and
the scalar losses they return are plain rationals.
-/

/-- Python-level fatal errors that the embedded code paths can raise:
a failed `assert` statement, or an attribute lookup on a name that the
object does not define. -/
inductive PyErr where
  | assertionError : PyErr
  | attributeError : String → PyErr
deriving DecidableEq

/-! ### Ignore-id label remap (lines 95-97 and 320-322)

`rnnt_text = torch.where(rnnt_text == self.ignore_id, 0, rnnt_text)` applied
elementwise to the padded label batch before the RNN-T loss kernel runs. -/

/-- One element of the remap: an `ignore_id` entry becomes `0`, every other
entry is kept unchanged (lines 96-97 of `forward`, identical in lines 321-322
of `transducer_attention_rescoring`). -/
def remapLabel (ignore_id x : Int) : Int :=
  if x = ignore_id then 0 else x

/-- The whole-tensor remap: `torch.where(text == ignore_id, 0, text)` over a
padded 2-D label batch. -/
def remapText (ignore_id : Int) (text : List (List Int)) : List (List Int) :=
  text.map (fun row => row.map (remapLabel ignore_id))

/-- The property asserted about the remapped tensor: no value equal to
`ignore_id` at any valid position (position `j < lens[r]`), and the value `0`
only at positions where `ignore_id` stood in the original tensor. -/
def remapClaim (ignore_id : Int) (text : List (List Int)) (lens : List Nat) : Prop :=
  (∀ r, r < text.length → ∀ j, j < lens.getD r 0 →
      ((remapText ignore_id text).getD r []).getD j 0 ≠ ignore_id) ∧
  (∀ r, r < text.length → ∀ j, j < (text.getD r []).length →
      ((remapText ignore_id text).getD r []).getD j 0 = 0 →
      (text.getD r []).getD j 0 = ignore_id)

/-! ### Reverse-decoding capability check (lines 271-273)

```
if reverse_weight > 0.0:
    # decoder should be a bitransformer decoder if reverse_weight > 0.0
    assert hasattr(self.decoder, 'right_decoder')
```
-/

/-- The configured attention decoder object. `BiTransformerDecoder` defines a
`right_decoder` submodule (it is reverse-capable); `TransformerDecoder` does
not. -/
structure AttnDecoderObj where
  has_right_decoder : Bool
deriving DecidableEq

/-- Evaluation of `self.decoder` on a `Transducer` instance. `__init__`
(lines 40-62) assigns the attributes `blank`, `sos`, `eos`, `vocab_size`,
`ignore_id`, `transducer_weight`, `ctc_weight`, `reverse_weight`,
`attention_decoder_weight`, `encoder`, `predictor`, `joint`, `ctc`,
`attention_decoder`, `bs` and (conditionally) `criterion_att`.  No attribute
named `decoder` is ever assigned — the attention decoder is stored as
`attention_decoder` — so the lookup raises `AttributeError` for every
instance, whatever decoder was configured. -/
def transducerDecoderAttr (_attention_decoder : Option AttnDecoderObj) :
    Except PyErr AttnDecoderObj :=
  .error (.attributeError "decoder")

/-- Lines 271-273 of `transducer_attention_rescoring`: when
`reverse_weight > 0`, evaluate `self.decoder` (which raises, see
`transducerDecoderAttr`) and assert that it has a `right_decoder` attribute;
otherwise the check is skipped. -/
def reverseDecoderCheck (attention_decoder : Option AttnDecoderObj)
    (reverse_weight : Rat) : Except PyErr Unit :=
  if reverse_weight > 0 then
    match transducerDecoderAttr attention_decoder with
    | .error e => .error e
    | .ok d => if d.has_right_decoder then .ok () else .error .assertionError
  else .ok ()

/-! ### Training-loss composition (`forward`, lines 64-132) -/

/-- The configuration state a `Transducer` instance carries after `__init__`
(lines 40-62): the loss weights, whether the optional CTC head and attention
decoder modules are present (`is not None`), and the reverse blending weight.
`attention_decoder_weight` is the derived field of line 48. -/
structure TransducerCfg where
  vocab_size : Nat
  blank : Nat
  ignore_id : Int
  ctc_weight : Rat
  transducer_weight : Rat
  reverse_weight : Rat
  attention_decoder_weight : Rat
  has_ctc : Bool
  has_attention_decoder : Bool
deriving DecidableEq

/-- `__init__` (lines 36-48): asserts
`attention_weight + ctc_weight + transducer_weight == 1.0` and derives
`attention_decoder_weight = 1 - transducer_weight - ctc_weight`. -/
def mkTransducerCfg (vocab_size blank : Nat) (ignore_id : Int)
    (ctc_weight transducer_weight attention_weight reverse_weight : Rat)
    (has_ctc has_attention_decoder : Bool) : Except PyErr TransducerCfg :=
  if attention_weight + ctc_weight + transducer_weight = 1 then
    .ok { vocab_size := vocab_size, blank := blank, ignore_id := ignore_id,
          ctc_weight := ctc_weight, transducer_weight := transducer_weight,
          reverse_weight := reverse_weight,
          attention_decoder_weight := 1 - transducer_weight - ctc_weight,
          has_ctc := has_ctc, has_attention_decoder := has_attention_decoder }
  else .error .assertionError

/-- The scalar loss values the opaque heads would return on the given batch:
`torchaudio.functional.rnnt_loss(..., reduction="mean")` (line 100), the CTC
head's loss (line 117; a scalar, so `.sum()` is the value itself), and the
forward and reverse attention criteria of `_calc_att_loss` (lines 154, 157). -/
structure HeadOutputs where
  rnnt_loss : Rat
  ctc_loss : Rat
  att_loss_fwd : Rat
  att_loss_rev : Rat
deriving DecidableEq

/-- Loss part of `_calc_att_loss` (lines 154-159): `r_loss_att` defaults to
`0.0` and is recomputed only when `reverse_weight > 0`; the result blends
`loss_att * (1 - reverse_weight) + r_loss_att * reverse_weight`. -/
def calc_att_loss (cfg : TransducerCfg) (h : HeadOutputs) : Rat :=
  let r_loss_att := if cfg.reverse_weight > 0 then h.att_loss_rev else 0
  h.att_loss_fwd * (1 - cfg.reverse_weight) + r_loss_att * cfg.reverse_weight

/-- The output bundle of `forward` (lines 127-132), plus two instrumentation
flags recording whether the optional heads' forward passes ran at all (the
guards of lines 110 and 116). -/
structure ForwardOutput where
  loss : Rat
  loss_att : Option Rat
  loss_ctc : Option Rat
  loss_rnnt : Rat
  att_invoked : Bool
  ctc_invoked : Bool
deriving DecidableEq

/-- `Transducer.forward` (lines 64-132), loss composition only.  `loss` starts
as the RNN-T loss (line 100, saved as `loss_rnnt` on line 106); the attention
loss is computed only when `attention_decoder_weight != 0.0 and
attention_decoder is not None` (line 110), the CTC loss only when
`ctc_weight != 0.0 and ctc is not None` (line 116); present terms are added
to `loss` with their weights (lines 122-125).  Note the code never multiplies
the RNN-T term by `transducer_weight`. -/
def forward (cfg : TransducerCfg) (h : HeadOutputs) : ForwardOutput :=
  let loss := h.rnnt_loss
  let loss_rnnt := loss
  let att_run : Bool := decide (cfg.attention_decoder_weight ≠ 0) && cfg.has_attention_decoder
  let loss_att : Option Rat := if att_run then some (calc_att_loss cfg h) else none
  let ctc_run : Bool := decide (cfg.ctc_weight ≠ 0) && cfg.has_ctc
  let loss_ctc : Option Rat := if ctc_run then some h.ctc_loss else none
  let loss := match loss_ctc with
    | some lc => loss + cfg.ctc_weight * lc
    | none => loss
  let loss := match loss_att with
    | some la => loss + cfg.attention_decoder_weight * la
    | none => loss
  { loss := loss, loss_att := loss_att, loss_ctc := loss_ctc,
    loss_rnnt := loss_rnnt, att_invoked := att_run, ctc_invoked := ctc_run }

/-- The contribution the attention term makes to the total loss in `forward`
(zero when the head is skipped). -/
def attTermOf (cfg : TransducerCfg) (h : HeadOutputs) : Rat :=
  if cfg.attention_decoder_weight ≠ 0 ∧ cfg.has_attention_decoder then
    cfg.attention_decoder_weight * calc_att_loss cfg h
  else 0

/-- The contribution the CTC term makes to the total loss in `forward`
(zero when the head is skipped). -/
def ctcTermOf (cfg : TransducerCfg) (h : HeadOutputs) : Rat :=
  if cfg.ctc_weight ≠ 0 ∧ cfg.has_ctc then cfg.ctc_weight * h.ctc_loss else 0

/-! ### Rescoring score fusion and selection (lines 331-371)

The attention decoder's (log-softmaxed) output arrays are embedded as
functions `decoder_out i j w : Rat` giving the log-probability of vocabulary
word `w` at position `j` for beam hypothesis `i`; the beam scores and the
per-hypothesis RNN-T losses (`reduction='none'`, line 324) as functions of
the hypothesis index. -/

/-- Forward attention score of one hypothesis (lines 351-354):
`score = Σ_j decoder_out[j][hyp[j]]` plus the end-of-sentence log-probability
at position `len(hyp)`. -/
def attnForwardSum (dOut : Nat → Nat → Rat) (eos : Nat) (hyp : List Nat) : Rat :=
  hyp.enum.foldl (fun acc jw => acc + dOut jw.1 jw.2) 0 + dOut hyp.length eos

/-- Right-to-left attention score of one hypothesis (lines 358-361):
`r_score = Σ_j r_decoder_out[len(hyp)-j-1][hyp[j]]` plus the end-of-sentence
log-probability at position `len(hyp)`. -/
def attnReverseSum (rOut : Nat → Nat → Rat) (eos : Nat) (hyp : List Nat) : Rat :=
  hyp.enum.foldl (fun acc jw => acc + rOut (hyp.length - jw.1 - 1) jw.2) 0 +
    rOut hyp.length eos

/-- Attention score after the optional reverse blending (lines 356-362): when
`reverse_weight > 0` the forward and reverse sums are blended as
`score * (1 - reverse_weight) + r_score * reverse_weight`, otherwise the
forward sum is used unchanged. -/
def attnBlended (rw : Rat) (dOut rOut : Nat → Nat → Rat) (eos : Nat)
    (hyp : List Nat) : Rat :=
  let score := attnForwardSum dOut eos hyp
  if rw > 0 then score * (1 - rw) + attnReverseSum rOut eos hyp * rw else score

/-- Fused score of hypothesis `i` (lines 351-366):
`score * attn_weight + beam_score[i] * ctc_weight + td_s * transducer_weight`
where `td_s = td_score[i]` and `td_score = loss_td * -1` (line 331). -/
def hypScore (rw aw cw tw : Rat) (dOut rOut : Nat → Nat → Nat → Rat)
    (eos : Nat) (beam_score td_score : Nat → Rat) (i : Nat) (hyp : List Nat) : Rat :=
  attnBlended rw (dOut i) (rOut i) eos hyp * aw + beam_score i * cw + td_score i * tw

/-- The comparison `score > best_score` of line 367, with `none` standing for
the initial `best_score = -float('inf')` of line 348 (every finite score
beats it). -/
def bestLt : Option Rat → Rat → Bool
  | none, _ => true
  | some b, s => decide (b < s)

/-- The selection loop of lines 348-369: iterate over the hypotheses in beam
order, keep the index and score of the best hypothesis seen so far, and
replace it only on a strictly greater score. -/
def selectLoop (f : Nat → List Nat → Rat) :
    List (List Nat) → Nat → Nat → Option Rat → Nat × Option Rat
  | [], _, best_index, best_score => (best_index, best_score)
  | hyp :: rest, i, best_index, best_score =>
      let score := f i hyp
      if bestLt best_score score then selectLoop f rest (i + 1) i (some score)
      else selectLoop f rest (i + 1) best_index best_score

/-- The rescoring stage of `transducer_attention_rescoring` (lines 331-371):
fuse the attention, beam and transducer scores per hypothesis, select the
arg-max with strict `>`, and return `hyps[best_index]` with its score. -/
def rescoring (rw aw cw tw : Rat) (dOut rOut : Nat → Nat → Nat → Rat)
    (eos : Nat) (hyps : List (List Nat)) (beam_score loss_td : Nat → Rat) :
    List Nat × Option Rat :=
  let f := hypScore rw aw cw tw dOut rOut eos beam_score (fun i => -(loss_td i))
  let best := selectLoop f hyps 0 0 none
  (hyps.getD best.1 [], best.2)

/-- The fused score the code assigns to hypothesis `j` of the beam. -/
def fusedScore (rw aw cw tw : Rat) (dOut rOut : Nat → Nat → Nat → Rat)
    (eos : Nat) (hyps : List (List Nat)) (beam_score loss_td : Nat → Rat)
    (j : Nat) : Rat :=
  hypScore rw aw cw tw dOut rOut eos beam_score (fun i => -(loss_td i)) j
    (hyps.getD j [])

/-- Modelled from the spec's words: "forward-only scoring" — the fused score
of a hypothesis using only the forward attention sum, with no reverse-branch
machinery at all. -/
def hypScoreForwardOnly (aw cw tw : Rat) (dOut : Nat → Nat → Nat → Rat)
    (eos : Nat) (beam_score td_score : Nat → Rat) (i : Nat) (hyp : List Nat) : Rat :=
  attnForwardSum (dOut i) eos hyp * aw + beam_score i * cw + td_score i * tw

/-- Modelled from the spec's words: forward-only rescoring — the same
selection over forward-only fused scores. -/
def rescoringForwardOnly (aw cw tw : Rat) (dOut : Nat → Nat → Nat → Rat)
    (eos : Nat) (hyps : List (List Nat)) (beam_score loss_td : Nat → Rat) :
    List Nat × Option Rat :=
  let f := hypScoreForwardOnly aw cw tw dOut eos beam_score (fun i => -(loss_td i))
  let best := selectLoop f hyps 0 0 none
  (hyps.getD best.1 [], best.2)

/-! ### Greedy search (`greedy_search`, lines 374-457)

The opaque collaborators are embedded as a record of functions: the encoder
(called once before the loop with the overwritten chunk arguments, line 409)
yields the valid output length `encoder_out_lens` and the per-frame feature
slices, abstracted as integers; `predictor.forward_step` maps the last label
and the `(state_m, state_c)` pair to a predictor output and a new state pair;
the joint network composed with `log_softmax` and `argmax` (lines 437-441)
maps an encoder frame and a predictor output straight to the arg-max label. -/

/-- Opaque encoder / predictor / joint collaborators of `greedy_search`. -/
structure GreedyModel where
  encLen : Int → Int → Nat
  encFrame : Int → Int → Nat → Int
  predStep : Nat → Int → Int → Int × Int × Int
  jointMax : Int → Int → Nat
  initStateM : Int
  initStateC : Int

/-- The Python local variables of the decoding loop (lines 419-430), plus two
instrumentation counters: `steps` counts loop iterations and `predCalls`
counts invocations of `predictor.forward_step`. -/
structure GreedyState where
  t : Nat
  hyps : List Nat
  prevOutNblk : Bool
  predInput : Nat
  stateM : Int
  stateC : Int
  predOut : Int
  stateOutM : Int
  stateOutC : Int
  perFrameNoblk : Nat
  steps : Nat
  predCalls : Nat
deriving DecidableEq

/-- `per_frame_max_noblk = 100` (line 429). -/
def perFrameMaxNoblk : Nat := 100

/-- The predictor output and output state visible to the joint network this
iteration (lines 433-435): refreshed by `predictor.forward_step` when the
previous step emitted a non-blank label, otherwise the stale values of the
last refresh are reused. -/
def greedyPred (M : GreedyModel) (s : GreedyState) : Int × Int × Int :=
  if s.prevOutNblk then M.predStep s.predInput s.stateM s.stateC
  else (s.predOut, s.stateOutM, s.stateOutC)

/-- The arg-max label of the joint output at the current frame (lines
437-441). -/
def greedyEmit (M : GreedyModel) (enc : Nat → Int) (s : GreedyState) : Nat :=
  M.jointMax (enc s.t) (greedyPred M s).1

/-- One iteration of the `while t < encoder_out_lens` loop (lines 431-455):
optional predictor refresh; joint arg-max; on a non-blank label append it,
set `prev_out_nblk`, bump the per-frame counter, feed the label back and
commit the refreshed state; on blank, or when the per-frame counter reached
`per_frame_max_noblk`, advance `t` and reset the counter, additionally
clearing `prev_out_nblk` when the cap was reached. -/
def greedyStep (M : GreedyModel) (blank : Nat) (enc : Nat → Int)
    (s : GreedyState) : GreedyState :=
  let po := greedyPred M s
  let pc := if s.prevOutNblk then s.predCalls + 1 else s.predCalls
  let jmax := greedyEmit M enc s
  let s1 : GreedyState :=
    { s with predOut := po.1, stateOutM := po.2.1, stateOutC := po.2.2,
             predCalls := pc, steps := s.steps + 1 }
  let s2 : GreedyState :=
    if jmax ≠ blank then
      { s1 with hyps := s1.hyps ++ [jmax], prevOutNblk := true,
                perFrameNoblk := s1.perFrameNoblk + 1, predInput := jmax,
                stateM := po.2.1, stateC := po.2.2 }
    else s1
  if jmax = blank ∨ s2.perFrameNoblk ≥ perFrameMaxNoblk then
    { s2 with prevOutNblk := if s2.perFrameNoblk ≥ perFrameMaxNoblk then false
                             else s2.prevOutNblk,
              t := s2.t + 1, perFrameNoblk := 0 }
  else s2

/-- The decoding loop, fuelled: run `greedyStep` while `t < L`, giving up when
the fuel runs out.  Fuel `L * 101` provably always reaches the loop's exit
condition `t ≥ L` (the loop strictly decreases `greedyBound`), so with that
fuel this is exactly the `while` loop of lines 431-455. -/
def greedyLoopF (M : GreedyModel) (blank : Nat) (enc : Nat → Int) (L : Nat) :
    Nat → GreedyState → GreedyState
  | 0, s => s
  | n + 1, s => if s.t < L then greedyLoopF M blank enc L n (greedyStep M blank enc s) else s

/-- The loop's initial state (lines 419-430): `t = 0`, empty hypothesis,
`prev_out_nblk = True`, the blank label as first predictor input, the zeroed
predictor state of `init_state` (line 422), and counter `per_frame_noblk = 0`.
The `pred_out_step`/`state_out` locals are uninitialised in Python (line 428);
they are seeded with `0` here and are never read before the first refresh
because `prev_out_nblk` starts `True`. -/
def initGreedyState (M : GreedyModel) (blank : Nat) : GreedyState :=
  { t := 0, hyps := [], prevOutNblk := true, predInput := blank,
    stateM := M.initStateM, stateC := M.initStateC,
    predOut := 0, stateOutM := 0, stateOutC := 0,
    perFrameNoblk := 0, steps := 0, predCalls := 0 }

/-- `Transducer.greedy_search` (lines 374-457).  After the
`assert decoding_chunk_size != 0` (line 401) the three decode arguments are
overwritten with the fixed full-chunk, non-streaming values (lines 406-408)
before the encoder runs (line 409); the loop then decodes frame by frame and
the hypothesis list is returned wrapped in a singleton batch (line 457). -/
def greedy_search (M : GreedyModel) (blank : Nat)
    (decoding_chunk_size num_decoding_left_chunks : Int)
    (simulate_streaming : Bool) : Except PyErr (List (List Nat)) :=
  if decoding_chunk_size = 0 then .error .assertionError
  else
    let num_decoding_left_chunks : Int := -1
    let decoding_chunk_size : Int := -1
    let _simulate_streaming : Bool := false
    let L := M.encLen decoding_chunk_size num_decoding_left_chunks
    let enc := M.encFrame decoding_chunk_size num_decoding_left_chunks
    let s := greedyLoopF M blank enc L (L * 101) (initGreedyState M blank)
    .ok [s.hyps]

/-! ### Claim C2 -/

/-- C2: the claim states that with `reverse_weight > 0` a fatal error is
raised if and only if the attention decoder lacks reverse-decoding
capability, a reverse-capable decoder passing the check.  On the code this
fails: the check reads `self.decoder`, an attribute the class never assigns,
so even a reverse-capable `BiTransformerDecoder` configuration raises
`AttributeError` — while with `reverse_weight = 0` no check runs at all. -/
theorem reverse_check_attribute_error :
    reverseDecoderCheck (some ⟨true⟩) (1/2) = .error (.attributeError "decoder") ∧
    reverseDecoderCheck (some ⟨true⟩) 0 = .ok () := by
  constructor
  · norm_num [reverseDecoderCheck, transducerDecoderAttr]
  · norm_num [reverseDecoderCheck]

/-! ### Claim C8 -/

/-- C8, counterexample: with the default `ignore_id = -1` and the batch
`[[0, 5, -1]]` (all three positions valid), the remapped tensor holds `0` at
position `(0,0)` even though the original value there was the genuine label
`0`, not `ignore_id` — so "value 0 only at positions where ignore-id
existed" fails. -/
theorem remap_zero_label_counterexample :
    ¬ remapClaim (-1) [[0, 5, -1]] [3] := by
  intro h
  have h0 := h.2 0 (by norm_num) 0 (by norm_num)
    (by norm_num [remapText, remapLabel])
  norm_num at h0

/-- C8 (amended): for any `ignore_id ≠ 0`, the remapped tensor contains no
value equal to `ignore_id` anywhere, equals `0` at every position where
`ignore_id` stood, and preserves every other label unchanged — so `0` can
additionally appear at a valid position only when the original label there
was itself `0`. -/
theorem remap_characterization (ignore_id : Int) (hne : ignore_id ≠ 0)
    (text : List (List Int)) :
    (∀ x : Int, remapLabel ignore_id x ≠ ignore_id) ∧
    (∀ x : Int, x = ignore_id → remapLabel ignore_id x = 0) ∧
    (∀ x : Int, x ≠ ignore_id → remapLabel ignore_id x = x) ∧
    (∀ r j, ∀ hr : r < text.length, ∀ hj : j < (text.getD r []).length,
      ((remapText ignore_id text).getD r []).getD j 0 =
        remapLabel ignore_id ((text.getD r []).getD j 0)) := by
  refine ⟨?_, ?_, ?_, ?_⟩
  · intro x
    by_cases hx : x = ignore_id <;> simp [remapLabel, hx]
    exact fun h => hne h.symm
  · intro x hx; simp [remapLabel, hx]
  · intro x hx; simp [remapLabel, hx]
  · intro r j hr hj
    have hr' : r < (remapText ignore_id text).length := by
      simpa [remapText] using hr
    rw [List.getD_eq_getElem _ _ hr']
    rw [List.getD_eq_getElem _ _ hr] at hj ⊢
    simp only [remapText, List.getElem_map]
    have hj' : j < ((text[r]).map (remapLabel ignore_id)).length := by
      simpa using hj
    rw [List.getD_eq_getElem _ _ hj', List.getD_eq_getElem _ _ hj,
      List.getElem_map]

/-- C8, witness for `remap_characterization` at `ignore_id = -1` and the
batch `[[7, -1], [3]]`. -/
theorem remap_characterization_witness :
    (∀ x : Int, remapLabel (-1) x ≠ -1) ∧
    (∀ x : Int, x = -1 → remapLabel (-1) x = 0) ∧
    (∀ x : Int, x ≠ -1 → remapLabel (-1) x = x) ∧
    (∀ r j, ∀ _ : r < ([[7, -1], [3]] : List (List Int)).length,
      ∀ _ : j < (([[7, -1], [3]] : List (List Int)).getD r []).length,
      ((remapText (-1) [[7, -1], [3]]).getD r []).getD j 0 =
        remapLabel (-1) ((([[7, -1], [3]] : List (List Int)).getD r []).getD j 0)) :=
  remap_characterization (-1) (by decide) [[7, -1], [3]]

/-! ### Claim C1 -/

/-- Closed form of every field of `forward`: the optional entries are `some`
exactly under the guards of lines 110 and 116, the invocation flags equal
those guards, and the total loss is the RNN-T loss plus the present weighted
head terms. -/
theorem forward_fields (cfg : TransducerCfg) (h : HeadOutputs) :
    (forward cfg h).loss_rnnt = h.rnnt_loss ∧
    (forward cfg h).loss_ctc =
      (if cfg.ctc_weight ≠ 0 ∧ cfg.has_ctc then some h.ctc_loss else none) ∧
    (forward cfg h).loss_att =
      (if cfg.attention_decoder_weight ≠ 0 ∧ cfg.has_attention_decoder then
        some (calc_att_loss cfg h) else none) ∧
    (forward cfg h).ctc_invoked = (decide (cfg.ctc_weight ≠ 0) && cfg.has_ctc) ∧
    (forward cfg h).att_invoked =
      (decide (cfg.attention_decoder_weight ≠ 0) && cfg.has_attention_decoder) ∧
    (forward cfg h).loss = h.rnnt_loss + ctcTermOf cfg h + attTermOf cfg h := by
  by_cases h1 : cfg.ctc_weight = 0 <;> by_cases h2 : cfg.has_ctc = true <;>
    by_cases h3 : cfg.attention_decoder_weight = 0 <;>
    by_cases h4 : cfg.has_attention_decoder = true <;>
    simp [forward, ctcTermOf, attTermOf, h1, h2, h3, h4]

/-- C1, counterexample: the constructible configuration with
`ctc_weight = 1/4`, `transducer_weight = 1/2`, `attention_weight = 1/4`
(weights sum to 1, both optional heads present with nonzero weights) and
head losses `loss_rnnt = 1`, `loss_ctc = 0`, `loss_att = 0`.  The code
returns total loss `1` — the raw RNN-T loss plus zero head terms — while the
claimed linear combination `ctc_weight*0 + attn_weight*0 +
transducer_weight*1` is `1/2`. -/
theorem forward_transducer_weight_counterexample :
    mkTransducerCfg 10 0 (-1) (1/4) (1/2) (1/4) 0 true true =
      .ok { vocab_size := 10, blank := 0, ignore_id := -1, ctc_weight := 1/4,
            transducer_weight := 1/2, reverse_weight := 0,
            attention_decoder_weight := 1/4, has_ctc := true,
            has_attention_decoder := true } ∧
    (forward { vocab_size := 10, blank := 0, ignore_id := -1, ctc_weight := 1/4,
               transducer_weight := 1/2, reverse_weight := 0,
               attention_decoder_weight := 1/4, has_ctc := true,
               has_attention_decoder := true }
             { rnnt_loss := 1, ctc_loss := 0, att_loss_fwd := 0,
               att_loss_rev := 0 }).loss_ctc = some 0 ∧
    (forward { vocab_size := 10, blank := 0, ignore_id := -1, ctc_weight := 1/4,
               transducer_weight := 1/2, reverse_weight := 0,
               attention_decoder_weight := 1/4, has_ctc := true,
               has_attention_decoder := true }
             { rnnt_loss := 1, ctc_loss := 0, att_loss_fwd := 0,
               att_loss_rev := 0 }).loss_att = some 0 ∧
    (forward { vocab_size := 10, blank := 0, ignore_id := -1, ctc_weight := 1/4,
               transducer_weight := 1/2, reverse_weight := 0,
               attention_decoder_weight := 1/4, has_ctc := true,
               has_attention_decoder := true }
             { rnnt_loss := 1, ctc_loss := 0, att_loss_fwd := 0,
               att_loss_rev := 0 }).loss_rnnt = 1 ∧
    (forward { vocab_size := 10, blank := 0, ignore_id := -1, ctc_weight := 1/4,
               transducer_weight := 1/2, reverse_weight := 0,
               attention_decoder_weight := 1/4, has_ctc := true,
               has_attention_decoder := true }
             { rnnt_loss := 1, ctc_loss := 0, att_loss_fwd := 0,
               att_loss_rev := 0 }).loss = 1 ∧
    ((1:Rat)/4 * 0 + 1/4 * 0 + 1/2 * 1 ≠ 1) := by
  refine ⟨?_, ?_, ?_, ?_, ?_, by norm_num⟩
  · norm_num [mkTransducerCfg]
  · norm_num [forward]
  · norm_num [forward, calc_att_loss]
  · norm_num [forward]
  · norm_num [forward, calc_att_loss]

/-- C1 (amended): with both optional heads present and carrying nonzero
weights, the total loss returned by `forward` is
`loss_rnnt + ctc_weight * loss_ctc.sum() + attention_decoder_weight *
loss_att.sum()` — the RNN-T anchor term enters with weight `1`, not
`transducer_weight`, and the two optional losses are the ones returned in
the bundle. -/
theorem forward_loss_composition (cfg : TransducerCfg) (h : HeadOutputs)
    (hcw : cfg.ctc_weight ≠ 0) (hhc : cfg.has_ctc = true)
    (haw : cfg.attention_decoder_weight ≠ 0)
    (hha : cfg.has_attention_decoder = true) :
    (forward cfg h).loss_ctc = some h.ctc_loss ∧
    (forward cfg h).loss_att = some (calc_att_loss cfg h) ∧
    (forward cfg h).loss_rnnt = h.rnnt_loss ∧
    (forward cfg h).loss =
      (forward cfg h).loss_rnnt + cfg.ctc_weight * h.ctc_loss +
        cfg.attention_decoder_weight * calc_att_loss cfg h := by
  obtain ⟨f1, f2, f3, _, _, f6⟩ := forward_fields cfg h
  refine ⟨?_, ?_, f1, ?_⟩
  · simp [f2, hcw, hhc]
  · simp [f3, haw, hha]
  · rw [f6, f1, ctcTermOf, attTermOf, if_pos ⟨hcw, by simp [hhc]⟩,
      if_pos ⟨haw, by simp [hha]⟩]

/-- C1, witness for `forward_loss_composition` at the configuration of the
counterexample with nonzero head losses. -/
theorem forward_loss_composition_witness :
    (forward { vocab_size := 10, blank := 0, ignore_id := -1, ctc_weight := 1/4,
               transducer_weight := 1/2, reverse_weight := 0,
               attention_decoder_weight := 1/4, has_ctc := true,
               has_attention_decoder := true }
             { rnnt_loss := 1, ctc_loss := 2, att_loss_fwd := 3,
               att_loss_rev := 0 }).loss_ctc = some 2 ∧
    (forward { vocab_size := 10, blank := 0, ignore_id := -1, ctc_weight := 1/4,
               transducer_weight := 1/2, reverse_weight := 0,
               attention_decoder_weight := 1/4, has_ctc := true,
               has_attention_decoder := true }
             { rnnt_loss := 1, ctc_loss := 2, att_loss_fwd := 3,
               att_loss_rev := 0 }).loss_att =
      some (calc_att_loss
        { vocab_size := 10, blank := 0, ignore_id := -1, ctc_weight := 1/4,
          transducer_weight := 1/2, reverse_weight := 0,
          attention_decoder_weight := 1/4, has_ctc := true,
          has_attention_decoder := true }
        { rnnt_loss := 1, ctc_loss := 2, att_loss_fwd := 3,
          att_loss_rev := 0 }) ∧
    (forward { vocab_size := 10, blank := 0, ignore_id := -1, ctc_weight := 1/4,
               transducer_weight := 1/2, reverse_weight := 0,
               attention_decoder_weight := 1/4, has_ctc := true,
               has_attention_decoder := true }
             { rnnt_loss := 1, ctc_loss := 2, att_loss_fwd := 3,
               att_loss_rev := 0 }).loss_rnnt = 1 ∧
    (forward { vocab_size := 10, blank := 0, ignore_id := -1, ctc_weight := 1/4,
               transducer_weight := 1/2, reverse_weight := 0,
               attention_decoder_weight := 1/4, has_ctc := true,
               has_attention_decoder := true }
             { rnnt_loss := 1, ctc_loss := 2, att_loss_fwd := 3,
               att_loss_rev := 0 }).loss =
      (forward { vocab_size := 10, blank := 0, ignore_id := -1, ctc_weight := 1/4,
                 transducer_weight := 1/2, reverse_weight := 0,
                 attention_decoder_weight := 1/4, has_ctc := true,
                 has_attention_decoder := true }
               { rnnt_loss := 1, ctc_loss := 2, att_loss_fwd := 3,
                 att_loss_rev := 0 }).loss_rnnt + 1/4 * 2 +
        1/4 * calc_att_loss
          { vocab_size := 10, blank := 0, ignore_id := -1, ctc_weight := 1/4,
            transducer_weight := 1/2, reverse_weight := 0,
            attention_decoder_weight := 1/4, has_ctc := true,
            has_attention_decoder := true }
          { rnnt_loss := 1, ctc_loss := 2, att_loss_fwd := 3,
            att_loss_rev := 0 } :=
  forward_loss_composition _ _ (by simp) rfl (by simp) rfl

/-! ### Claim C5 -/

/-- C5: a loss term whose weight is zero or whose head module is absent is
skipped entirely — the head's forward pass is not invoked, the bundle entry
is `none` rather than a zero value, and the term contributes nothing to the
total-loss sum (the total is the RNN-T loss plus only the other head's
term). -/
theorem forward_skips_zero_weight_heads (cfg : TransducerCfg) (h : HeadOutputs) :
    ((cfg.ctc_weight = 0 ∨ cfg.has_ctc = false) →
      (forward cfg h).loss_ctc = none ∧ (forward cfg h).ctc_invoked = false ∧
      (forward cfg h).loss = h.rnnt_loss + attTermOf cfg h) ∧
    ((cfg.attention_decoder_weight = 0 ∨ cfg.has_attention_decoder = false) →
      (forward cfg h).loss_att = none ∧ (forward cfg h).att_invoked = false ∧
      (forward cfg h).loss = h.rnnt_loss + ctcTermOf cfg h) := by
  obtain ⟨_, f2, f3, f4, f5, f6⟩ := forward_fields cfg h
  constructor
  · intro hc
    have hp : ¬(cfg.ctc_weight ≠ 0 ∧ cfg.has_ctc) := by
      rcases hc with hc | hc <;> simp [hc]
    refine ⟨by simp [f2, hp], ?_, ?_⟩
    · rw [f4]
      rcases hc with hc | hc <;> simp [hc]
    · rw [f6, ctcTermOf, if_neg hp, add_zero]
  · intro hc
    have hp : ¬(cfg.attention_decoder_weight ≠ 0 ∧ cfg.has_attention_decoder) := by
      rcases hc with hc | hc <;> simp [hc]
    refine ⟨by simp [f3, hp], ?_, ?_⟩
    · rw [f5]
      rcases hc with hc | hc <;> simp [hc]
    · rw [f6, attTermOf, if_neg hp, add_zero]

/-- C5, witness for `forward_skips_zero_weight_heads` at a configuration
with `ctc_weight = 0` and no attention decoder module. -/
theorem forward_skips_witness :
    ((forward { vocab_size := 10, blank := 0, ignore_id := -1, ctc_weight := 0,
                transducer_weight := 1, reverse_weight := 0,
                attention_decoder_weight := 0, has_ctc := true,
                has_attention_decoder := false }
              { rnnt_loss := 5, ctc_loss := 2, att_loss_fwd := 3,
                att_loss_rev := 0 }).loss_ctc = none ∧
     (forward { vocab_size := 10, blank := 0, ignore_id := -1, ctc_weight := 0,
                transducer_weight := 1, reverse_weight := 0,
                attention_decoder_weight := 0, has_ctc := true,
                has_attention_decoder := false }
              { rnnt_loss := 5, ctc_loss := 2, att_loss_fwd := 3,
                att_loss_rev := 0 }).ctc_invoked = false ∧
     (forward { vocab_size := 10, blank := 0, ignore_id := -1, ctc_weight := 0,
                transducer_weight := 1, reverse_weight := 0,
                attention_decoder_weight := 0, has_ctc := true,
                has_attention_decoder := false }
              { rnnt_loss := 5, ctc_loss := 2, att_loss_fwd := 3,
                att_loss_rev := 0 }).loss =
       5 + attTermOf
         { vocab_size := 10, blank := 0, ignore_id := -1, ctc_weight := 0,
           transducer_weight := 1, reverse_weight := 0,
           attention_decoder_weight := 0, has_ctc := true,
           has_attention_decoder := false }
         { rnnt_loss := 5, ctc_loss := 2, att_loss_fwd := 3,
           att_loss_rev := 0 }) :=
  (forward_skips_zero_weight_heads _ _).1 (Or.inl rfl)

/-! ### Claim C6 -/

/-- C6: rescoring with `reverse_weight = 0` coincides exactly with
forward-only scoring — for every input (and whatever the reverse decoder
output holds) the selection and the returned score equal those of the
variant with no reverse machinery, so the reverse term contributes exactly
zero to every fused score and to the selected hypothesis. -/
theorem rescoring_reverse_zero_forward_only (aw cw tw : Rat)
    (dOut rOut : Nat → Nat → Nat → Rat) (eos : Nat) (hyps : List (List Nat))
    (beam_score loss_td : Nat → Rat) :
    rescoring 0 aw cw tw dOut rOut eos hyps beam_score loss_td =
      rescoringForwardOnly aw cw tw dOut eos hyps beam_score loss_td := by
  have hf : hypScore 0 aw cw tw dOut rOut eos beam_score (fun i => -(loss_td i)) =
      hypScoreForwardOnly aw cw tw dOut eos beam_score (fun i => -(loss_td i)) := by
    funext i hyp
    simp [hypScore, hypScoreForwardOnly, attnBlended]
  simp only [rescoring, rescoringForwardOnly, hf]

/-! ### Claim C4 -/

/-- Invariant of the selection loop of lines 348-369, starting from an
already-set best score `b` at index `bi`: the loop returns a set best score
`B ≥ b` that bounds every remaining fused score, and either the accumulator
survives or the result is the score of some remaining hypothesis that
strictly beats `b` and strictly beats every hypothesis before it. -/
theorem selectLoop_go (f : Nat → List Nat → Rat) :
    ∀ (l : List (List Nat)) (i bi : Nat) (b : Rat),
      ∃ BI B, selectLoop f l i bi (some b) = (BI, some B) ∧
        b ≤ B ∧
        (∀ k, k < l.length → f (i + k) (l.getD k []) ≤ B) ∧
        ((BI = bi ∧ B = b) ∨
          (∃ k, k < l.length ∧ BI = i + k ∧ B = f (i + k) (l.getD k []) ∧
            b < B ∧ ∀ m, m < k → f (i + m) (l.getD m []) < B)) := by
  intro l
  induction l with
  | nil =>
    intro i bi b
    exact ⟨bi, b, rfl, le_refl b, by simp, Or.inl ⟨rfl, rfl⟩⟩
  | cons hyp rest ih =>
    intro i bi b
    by_cases hlt : b < f i hyp
    · have hsel : selectLoop f (hyp :: rest) i bi (some b) =
          selectLoop f rest (i + 1) i (some (f i hyp)) := by
        simp [selectLoop, bestLt, hlt]
      obtain ⟨BI, B, heq, hle, hall, hcase⟩ := ih (i + 1) i (f i hyp)
      refine ⟨BI, B, by rw [hsel, heq], le_of_lt (lt_of_lt_of_le hlt hle), ?_, ?_⟩
      · intro k hk
        cases k with
        | zero => simpa using hle
        | succ m =>
          have hm : m < rest.length := by simpa using hk
          have := hall m hm
          have harith : i + 1 + m = i + (m + 1) := by omega
          rw [harith] at this
          simpa using this
      · rcases hcase with ⟨hbi, hB⟩ | ⟨k, hk, hBI, hB, hbB, hmin⟩
        · right
          refine ⟨0, by simp, by omega, by simpa using hB, ?_, by omega⟩
          rw [hB]; exact hlt
        · right
          refine ⟨k + 1, by simpa using hk, by omega, ?_, lt_trans hlt hbB, ?_⟩
          · have harith : i + 1 + k = i + (k + 1) := by omega
            rw [harith] at hB
            simpa using hB
          · intro m hm
            cases m with
            | zero =>
              simp only [List.getD_cons_zero, Nat.add_zero]
              exact hbB
            | succ m' =>
              have hm' : m' < k := by omega
              have := hmin m' hm'
              have harith : i + 1 + m' = i + (m' + 1) := by omega
              rw [harith] at this
              simpa using this
    · have hsel : selectLoop f (hyp :: rest) i bi (some b) =
          selectLoop f rest (i + 1) bi (some b) := by
        simp [selectLoop, bestLt, hlt]
      obtain ⟨BI, B, heq, hle, hall, hcase⟩ := ih (i + 1) bi b
      have hfb : f i hyp ≤ b := le_of_not_lt hlt
      refine ⟨BI, B, by rw [hsel, heq], hle, ?_, ?_⟩
      · intro k hk
        cases k with
        | zero => simpa using le_trans hfb hle
        | succ m =>
          have hm : m < rest.length := by simpa using hk
          have := hall m hm
          have harith : i + 1 + m = i + (m + 1) := by omega
          rw [harith] at this
          simpa using this
      · rcases hcase with ⟨hbi, hB⟩ | ⟨k, hk, hBI, hB, hbB, hmin⟩
        · exact Or.inl ⟨hbi, hB⟩
        · right
          refine ⟨k + 1, by simpa using hk, by omega, ?_, hbB, ?_⟩
          · have harith : i + 1 + k = i + (k + 1) := by omega
            rw [harith] at hB
            simpa using hB
          · intro m hm
            cases m with
            | zero =>
              simp only [List.getD_cons_zero, Nat.add_zero]
              exact lt_of_le_of_lt hfb hbB
            | succ m' =>
              have hm' : m' < k := by omega
              have := hmin m' hm'
              have harith : i + 1 + m' = i + (m' + 1) := by omega
              rw [harith] at this
              simpa using this

/-- C4: over a nonempty beam, the rescoring stage returns the hypothesis
whose fused score
`attn_weight * attn_score + ctc_weight * beam_score[i] +
transducer_weight * (-loss_td[i])` is maximal, ties broken in favour of the
earliest index (strict `>` comparison), together with that score. -/
theorem rescoring_selects_argmax (rw aw cw tw : Rat)
    (dOut rOut : Nat → Nat → Nat → Rat) (eos : Nat) (hyps : List (List Nat))
    (beam_score loss_td : Nat → Rat) (hK : 0 < hyps.length) :
    ∃ b, b < hyps.length ∧
      rescoring rw aw cw tw dOut rOut eos hyps beam_score loss_td =
        (hyps.getD b [],
         some (fusedScore rw aw cw tw dOut rOut eos hyps beam_score loss_td b)) ∧
      (∀ j, j < hyps.length →
        fusedScore rw aw cw tw dOut rOut eos hyps beam_score loss_td j ≤
          fusedScore rw aw cw tw dOut rOut eos hyps beam_score loss_td b) ∧
      (∀ j, j < b →
        fusedScore rw aw cw tw dOut rOut eos hyps beam_score loss_td j <
          fusedScore rw aw cw tw dOut rOut eos hyps beam_score loss_td b) ∧
      (∀ j, fusedScore rw aw cw tw dOut rOut eos hyps beam_score loss_td j =
        aw * attnBlended rw (dOut j) (rOut j) eos (hyps.getD j []) +
          cw * beam_score j + tw * (-(loss_td j))) := by
  cases hyps with
  | nil => simp at hK
  | cons h0 rest =>
    set f := hypScore rw aw cw tw dOut rOut eos beam_score (fun i => -(loss_td i)) with hfdef
    have hstart : selectLoop f (h0 :: rest) 0 0 none =
        selectLoop f rest 1 0 (some (f 0 h0)) := by
      simp [selectLoop, bestLt]
    obtain ⟨BI, B, heq, hle, hall, hcase⟩ := selectLoop_go f rest 1 0 (f 0 h0)
    have hres : rescoring rw aw cw tw dOut rOut eos (h0 :: rest) beam_score loss_td =
        ((h0 :: rest).getD BI [], some B) := by
      simp only [rescoring, ← hfdef, hstart, heq]
    have hfused : ∀ j, fusedScore rw aw cw tw dOut rOut eos (h0 :: rest)
        beam_score loss_td j = f j ((h0 :: rest).getD j []) := by
      intro j; simp [fusedScore, hfdef]
    have hBfused : B = fusedScore rw aw cw tw dOut rOut eos (h0 :: rest)
        beam_score loss_td BI := by
      rcases hcase with ⟨hbi, hB⟩ | ⟨k, hk, hBI, hB, _, _⟩
      · rw [hfused, hbi, hB]; simp
      · rw [hfused, hBI, hB]
        have harith : 1 + k = k + 1 := by omega
        simp [harith]
    have hBIlt : BI < (h0 :: rest).length := by
      rcases hcase with ⟨hbi, _⟩ | ⟨k, hk, hBI, _, _, _⟩
      · simp [hbi]
      · simp only [List.length_cons]; omega
    refine ⟨BI, hBIlt, by rw [hres, hBfused], ?_, ?_, ?_⟩
    · intro j hj
      rw [← hBfused, hfused]
      cases j with
      | zero => simpa using hle
      | succ m =>
        have hm : m < rest.length := by simpa using hj
        have := hall m hm
        have harith : 1 + m = m + 1 := by omega
        rw [harith] at this
        simpa using this
    · intro j hj
      rw [← hBfused, hfused]
      rcases hcase with ⟨hbi, _⟩ | ⟨k, hk, hBI, _, hbB, hmin⟩
      · omega
      · cases j with
        | zero => simpa using hbB
        | succ m =>
          have hm : m < k := by omega
          have := hmin m hm
          have harith : 1 + m = m + 1 := by omega
          rw [harith] at this
          simpa using this
    · intro j
      rw [hfused, hfdef]
      simp only [hypScore]
      ring

/-- C4, witness for `rescoring_selects_argmax` on a concrete two-hypothesis
beam. -/
theorem rescoring_selects_argmax_witness :
    ∃ b, b < ([[1], [2]] : List (List Nat)).length ∧
      rescoring 0 1 0 0 (fun _ _ _ => 0) (fun _ _ _ => 0) 9 [[1], [2]]
          (fun _ => 0) (fun _ => 0) =
        (([[1], [2]] : List (List Nat)).getD b [],
         some (fusedScore 0 1 0 0 (fun _ _ _ => 0) (fun _ _ _ => 0) 9 [[1], [2]]
           (fun _ => 0) (fun _ => 0) b)) ∧
      (∀ j, j < ([[1], [2]] : List (List Nat)).length →
        fusedScore 0 1 0 0 (fun _ _ _ => 0) (fun _ _ _ => 0) 9 [[1], [2]]
            (fun _ => 0) (fun _ => 0) j ≤
          fusedScore 0 1 0 0 (fun _ _ _ => 0) (fun _ _ _ => 0) 9 [[1], [2]]
            (fun _ => 0) (fun _ => 0) b) ∧
      (∀ j, j < b →
        fusedScore 0 1 0 0 (fun _ _ _ => 0) (fun _ _ _ => 0) 9 [[1], [2]]
            (fun _ => 0) (fun _ => 0) j <
          fusedScore 0 1 0 0 (fun _ _ _ => 0) (fun _ _ _ => 0) 9 [[1], [2]]
            (fun _ => 0) (fun _ => 0) b) ∧
      (∀ j, fusedScore 0 1 0 0 (fun _ _ _ => 0) (fun _ _ _ => 0) 9 [[1], [2]]
          (fun _ => 0) (fun _ => 0) j =
        1 * attnBlended 0 ((fun _ _ _ => (0:Rat)) j) ((fun _ _ _ => (0:Rat)) j) 9
            (([[1], [2]] : List (List Nat)).getD j []) +
          0 * (fun _ => (0:Rat)) j + 0 * (-((fun _ => (0:Rat)) j))) :=
  rescoring_selects_argmax 0 1 0 0 (fun _ _ _ => 0) (fun _ _ _ => 0) 9 [[1], [2]]
    (fun _ => 0) (fun _ => 0) (by simp)

/-! ### Greedy-search lemmas -/

/-- Every loop iteration bumps the instrumentation step counter by one, and
either advances the frame pointer with the per-frame counter reset (blank
arg-max, or the cap reached) or keeps the frame and strictly increments the
per-frame counter, which then stays below the cap. -/
theorem greedyStep_cases (M : GreedyModel) (blank : Nat) (enc : Nat → Int)
    (s : GreedyState) :
    (greedyStep M blank enc s).steps = s.steps + 1 ∧
    (((greedyStep M blank enc s).t = s.t + 1 ∧
      (greedyStep M blank enc s).perFrameNoblk = 0) ∨
     ((greedyStep M blank enc s).t = s.t ∧
      (greedyStep M blank enc s).perFrameNoblk = s.perFrameNoblk + 1 ∧
      s.perFrameNoblk + 1 < perFrameMaxNoblk)) := by
  by_cases hj : greedyEmit M enc s = blank
  · refine ⟨?_, Or.inl ⟨?_, ?_⟩⟩ <;> simp [greedyStep, hj]
  · by_cases hcap : s.perFrameNoblk + 1 ≥ perFrameMaxNoblk
    · refine ⟨?_, Or.inl ⟨?_, ?_⟩⟩ <;> simp [greedyStep, hj, hcap]
    · refine ⟨?_, Or.inr ⟨?_, ?_, by omega⟩⟩ <;> simp [greedyStep, hj, hcap]

/-- One iteration either leaves the hypothesis list unchanged or appends the
emitted arg-max label, which in that case differs from blank. -/
theorem greedyStep_hyps (M : GreedyModel) (blank : Nat) (enc : Nat → Int)
    (s : GreedyState) :
    (greedyStep M blank enc s).hyps = s.hyps ∨
    ((greedyStep M blank enc s).hyps = s.hyps ++ [greedyEmit M enc s] ∧
      greedyEmit M enc s ≠ blank) := by
  by_cases hj : greedyEmit M enc s = blank
  · left; simp [greedyStep, hj]
  · right
    refine ⟨?_, hj⟩
    by_cases hcap : s.perFrameNoblk + 1 ≥ perFrameMaxNoblk <;>
      simp [greedyStep, hj, hcap]

/-- When the previous iteration did not emit a non-blank label
(`prev_out_nblk` is false) the predictor is not invoked: the stale predictor
output is reused (lines 433-435). -/
theorem greedyStep_predCalls_stale (M : GreedyModel) (blank : Nat)
    (enc : Nat → Int) (s : GreedyState) (hp : s.prevOutNblk = false) :
    (greedyStep M blank enc s).predCalls = s.predCalls := by
  by_cases hj : greedyEmit M enc s = blank
  · simp [greedyStep, hj, hp]
  · by_cases hcap : s.perFrameNoblk + 1 ≥ perFrameMaxNoblk <;>
      simp [greedyStep, hj, hcap, hp]

/-- Fuel bound for the decoding loop measured from a state: at most `101`
iterations remain per undecoded frame, minus the per-frame progress already
made. -/
def greedyBound (L : Nat) (s : GreedyState) : Nat :=
  (L - s.t) * 101 - min s.perFrameNoblk 100

/-- Inside the loop the bound strictly decreases. -/
theorem greedyStep_bound (M : GreedyModel) (blank : Nat) (enc : Nat → Int)
    (L : Nat) (s : GreedyState) (ht : s.t < L) :
    greedyBound L (greedyStep M blank enc s) + 1 ≤ greedyBound L s := by
  have hm : min s.perFrameNoblk 100 ≤ 100 := Nat.min_le_right _ _
  have hm' : min s.perFrameNoblk 100 ≤ s.perFrameNoblk := Nat.min_le_left _ _
  obtain ⟨-, hcase⟩ := greedyStep_cases M blank enc s
  rcases hcase with ⟨h1, h2⟩ | ⟨h1, h2, h3⟩
  · simp only [greedyBound, h1, h2, Nat.zero_min]
    omega
  · have h3' : s.perFrameNoblk + 1 < 100 := by
      simpa [perFrameMaxNoblk] using h3
    have hmin1 : min (greedyStep M blank enc s).perFrameNoblk 100 =
        s.perFrameNoblk + 1 := by
      rw [h2]; exact Nat.min_eq_left (by omega)
    have hmin2 : min s.perFrameNoblk 100 = s.perFrameNoblk :=
      Nat.min_eq_left (by omega)
    simp only [greedyBound, h1, hmin1, hmin2]
    omega

/-- With fuel at least the bound, the fuelled loop reaches the `while` loop's
exit condition `t ≥ L`, taking at most `greedyBound` further iterations. -/
theorem greedyLoopF_exit (M : GreedyModel) (blank : Nat) (enc : Nat → Int)
    (L : Nat) :
    ∀ n s, greedyBound L s ≤ n →
      L ≤ (greedyLoopF M blank enc L n s).t ∧
      (greedyLoopF M blank enc L n s).steps ≤ s.steps + greedyBound L s := by
  intro n
  induction n with
  | zero =>
    intro s hb
    have ht : ¬ s.t < L := by
      intro ht
      have h1 : 1 * 101 ≤ (L - s.t) * 101 :=
        Nat.mul_le_mul_right _ (by omega)
      have hm : min s.perFrameNoblk 100 ≤ 100 := Nat.min_le_right _ _
      simp only [greedyBound] at hb
      omega
    simp only [greedyLoopF]
    exact ⟨by omega, Nat.le_add_right _ _⟩
  | succ n ih =>
    intro s hb
    by_cases ht : s.t < L
    · have hdec := greedyStep_bound M blank enc L s ht
      have hsteps := (greedyStep_cases M blank enc s).1
      have hrec := ih (greedyStep M blank enc s) (by omega)
      simp only [greedyLoopF, if_pos ht]
      exact ⟨hrec.1, by omega⟩
    · simp only [greedyLoopF, if_neg ht]
      exact ⟨by omega, Nat.le_add_right _ _⟩

/-- The hypothesis list never acquires the blank label. -/
theorem greedyLoopF_no_blank (M : GreedyModel) (blank : Nat) (enc : Nat → Int)
    (L : Nat) :
    ∀ n s, blank ∉ s.hyps → blank ∉ (greedyLoopF M blank enc L n s).hyps := by
  intro n
  induction n with
  | zero => intro s h; simpa [greedyLoopF] using h
  | succ n ih =>
    intro s h
    by_cases ht : s.t < L
    · simp only [greedyLoopF, if_pos ht]
      apply ih
      rcases greedyStep_hyps M blank enc s with hh | ⟨hh, hne⟩
      · rwa [hh]
      · rw [hh]
        simp only [List.mem_append, List.mem_singleton]
        rintro (hc | hc)
        · exact h hc
        · exact hne hc.symm
    · simpa [greedyLoopF, if_neg ht] using h

/-! ### Claim C10 -/

/-- C10: the greedy decoding loop terminates for every finite encoder output
length `L`: run with fuel `L * 101` from the initial state it reaches the
`while` loop's exit condition `t ≥ L` having executed at most `L * 101`
iterations, and every iteration either advances the frame pointer or
strictly increments the per-frame non-blank counter. -/
theorem greedy_loop_terminates_bounded (M : GreedyModel) (blank : Nat)
    (enc : Nat → Int) (L : Nat) :
    L ≤ (greedyLoopF M blank enc L (L * 101) (initGreedyState M blank)).t ∧
    (greedyLoopF M blank enc L (L * 101) (initGreedyState M blank)).steps ≤
      L * 101 ∧
    (∀ s : GreedyState, (greedyStep M blank enc s).t = s.t + 1 ∨
      (greedyStep M blank enc s).perFrameNoblk = s.perFrameNoblk + 1) := by
  have hb0 : greedyBound L (initGreedyState M blank) = L * 101 := by
    simp [greedyBound, initGreedyState]
  have h := greedyLoopF_exit M blank enc L (L * 101)
    (initGreedyState M blank) (le_of_eq hb0)
  refine ⟨h.1, ?_, ?_⟩
  · have h2 := h.2
    rw [hb0] at h2
    simpa [initGreedyState] using h2
  · intro s
    rcases (greedyStep_cases M blank enc s).2 with ⟨h1, _⟩ | ⟨_, h2, _⟩
    · exact Or.inl h1
    · exact Or.inr h2

/-! ### Claim C7 -/

/-- C7: every hypothesis returned by `greedy_search` is free of the blank
label id — blank is filtered by construction (only a non-blank arg-max is
ever appended, line 442-443). -/
theorem greedy_search_no_blank (M : GreedyModel) (blank : Nat)
    (dcs nlc : Int) (ss : Bool) (hs : List (List Nat))
    (hok : greedy_search M blank dcs nlc ss = .ok hs) :
    ∀ hyp ∈ hs, blank ∉ hyp := by
  by_cases h0 : dcs = 0
  · simp [greedy_search, h0] at hok
  · simp only [greedy_search, if_neg h0, Except.ok.injEq] at hok
    intro hyp hmem
    rw [← hok] at hmem
    simp only [List.mem_singleton] at hmem
    rw [hmem]
    exact greedyLoopF_no_blank M blank _ _ _ _ (by simp [initGreedyState])

/-- C7, witness for `greedy_search_no_blank` on a concrete model whose run
emits the single label `7`: the returned hypothesis `[7]` avoids blank `0`. -/
theorem greedy_search_no_blank_witness : (0 : Nat) ∉ ([7] : List Nat) :=
  greedy_search_no_blank
    { encLen := fun _ _ => 2, encFrame := fun _ _ t => (t : Int),
      predStep := fun _ m c => (m + 1, m + 1, c),
      jointMax := fun e p => if e = 0 ∧ p ≤ 1 then 7 else 0,
      initStateM := 0, initStateC := 0 }
    0 (-1) (-1) false [[7]] (by rfl) [7] (by decide)

/-! ### Claim C9 -/

/-- C9: the result of `greedy_search` does not depend on
`decoding_chunk_size` (as long as it is nonzero), `num_decoding_left_chunks`
or `simulate_streaming`: all three are overwritten with the fixed
full-chunk, non-streaming values (lines 406-408) before the encoder is
invoked, so any two calls differing only in these arguments coincide. -/
theorem greedy_search_chunk_args_irrelevant (M : GreedyModel) (blank : Nat)
    (dcs1 dcs2 nlc1 nlc2 : Int) (ss1 ss2 : Bool)
    (h1 : dcs1 ≠ 0) (h2 : dcs2 ≠ 0) :
    greedy_search M blank dcs1 nlc1 ss1 = greedy_search M blank dcs2 nlc2 ss2 := by
  simp only [greedy_search, if_neg h1, if_neg h2]

/-- C9, witness for `greedy_search_chunk_args_irrelevant` at two calls with
different chunk sizes, left-chunk counts and streaming flags. -/
theorem greedy_search_chunk_args_witness :
    greedy_search
      { encLen := fun _ _ => 1, encFrame := fun _ _ _ => 0,
        predStep := fun _ m c => (m, m, c), jointMax := fun _ _ => 0,
        initStateM := 0, initStateC := 0 } 0 5 7 true =
    greedy_search
      { encLen := fun _ _ => 1, encFrame := fun _ _ _ => 0,
        predStep := fun _ m c => (m, m, c), jointMax := fun _ _ => 0,
        initStateM := 0, initStateC := 0 } 0 (-1) (-1) false :=
  greedy_search_chunk_args_irrelevant _ 0 5 (-1) 7 (-1) true false
    (by decide) (by decide)

/-! ### Claim C3 -/

/-- A synthetic joint that always favours the non-blank label `7`, used to
drive the per-frame cap. -/
def capModel : GreedyModel :=
  { encLen := fun _ _ => 2, encFrame := fun _ _ _ => 0,
    predStep := fun _ m c => (m + 1, m + 1, c),
    jointMax := fun _ _ => 7, initStateM := 0, initStateC := 0 }

/-- The encoder frames seen by the cap run. -/
def capEnc : Nat → Int := fun _ => 0

/-- One loop iteration of the cap run with blank id `0`. -/
def capStep : GreedyState → GreedyState := greedyStep capModel 0 capEnc

/-- The initial decoding state of the cap run. -/
def capInit : GreedyState := initGreedyState capModel 0

set_option maxRecDepth 100000 in
/-- C3, counterexample: with a joint that always emits label `7`, after 99
iterations the counter stands at 99 with the frame pointer still at 0; the
100th decision is again non-blank, reaching the cap, whereupon the frame
pointer advances to 1 and the counter resets — but `prev_out_nblk` is forced
to `false`, so on the next (again non-blank) decision the predictor is NOT
refreshed (`predCalls` stays at 100): the cap suppresses the refresh, it
does not force one as the claim states. -/
theorem cap_refresh_counterexample :
    (capStep^[99] capInit).perFrameNoblk = 99 ∧
    (capStep^[99] capInit).t = 0 ∧
    greedyEmit capModel capEnc (capStep^[99] capInit) ≠ 0 ∧
    (capStep^[100] capInit).t = 1 ∧
    (capStep^[100] capInit).perFrameNoblk = 0 ∧
    (capStep^[100] capInit).prevOutNblk = false ∧
    (capStep^[100] capInit).predCalls = 100 ∧
    greedyEmit capModel capEnc (capStep^[100] capInit) ≠ 0 ∧
    (capStep^[101] capInit).predCalls = (capStep^[100] capInit).predCalls := by
  decide

/-- C3 (amended): whenever the per-frame non-blank counter reaches the cap
of 100 within one frame, the frame pointer advances by 1, the counter resets
to 0, and `prev_out_nblk` is cleared, so the predictor refresh is suppressed
on the next decision (the stale predictor output is reused) regardless of
the emitted label's identity. -/
theorem cap_advances_and_suppresses_refresh (M : GreedyModel) (blank : Nat)
    (enc : Nat → Int) (s : GreedyState)
    (he : greedyEmit M enc s ≠ blank)
    (hc : perFrameMaxNoblk ≤ s.perFrameNoblk + 1) :
    (greedyStep M blank enc s).t = s.t + 1 ∧
    (greedyStep M blank enc s).perFrameNoblk = 0 ∧
    (greedyStep M blank enc s).prevOutNblk = false ∧
    (∀ s2 : GreedyState, s2.prevOutNblk = false →
      (greedyStep M blank enc s2).predCalls = s2.predCalls) := by
  refine ⟨?_, ?_, ?_, fun s2 hp => greedyStep_predCalls_stale M blank enc s2 hp⟩ <;>
    simp [greedyStep, he, hc]

set_option maxRecDepth 100000 in
/-- C3, witness for `cap_advances_and_suppresses_refresh` at the state of
the cap run whose counter stands at 99. -/
theorem cap_advances_witness :
    (greedyStep capModel 0 capEnc (capStep^[99] capInit)).t =
      (capStep^[99] capInit).t + 1 ∧
    (greedyStep capModel 0 capEnc (capStep^[99] capInit)).perFrameNoblk = 0 ∧
    (greedyStep capModel 0 capEnc (capStep^[99] capInit)).prevOutNblk = false ∧
    (∀ s2 : GreedyState, s2.prevOutNblk = false →
      (greedyStep capModel 0 capEnc s2).predCalls = s2.predCalls) :=
  cap_advances_and_suppresses_refresh capModel 0 capEnc (capStep^[99] capInit)
    (by decide) (by decide)
